import Mathlib

/-!
Shallow embedding of the ETL pipeline repository (pandas-based Python) and
verification of its specified properties.

Modelling conventions:
- A pandas DataFrame is a list of typed rows; a column assignment is a map
  over the rows, a dropna or boolean-mask selection is a filter.
- The result of pd.to_numeric(col, errors="coerce") is an Option value:
  some q when the cell parsed, none for NaN.  Likewise pd.to_datetime with
  errors="coerce" yields an Option date (none = NaT).
- Rational numbers stand for the float values computed by pandas.
- Calendar dates in load_data and transform_sales are year/month/day
  records; in the incremental pipeline only the total order on timestamps
  matters, so there they are order-embedded into natural numbers.
-/

/-- A calendar date (year, month, day). -/
structure Date where
  year : Nat
  month : Nat
  day : Nat
  deriving DecidableEq, Repr

/-- The sentinel date 2000-01-01 used by clean_sales for unparsable dates. -/
def sentinelDate : Date := ⟨2000, 1, 1⟩

/-- str.strip(): remove leading and trailing whitespace (structural
model of the library routine). -/
def strip (s : String) : String :=
  ⟨((s.data.dropWhile Char.isWhitespace).reverse.dropWhile Char.isWhitespace).reverse⟩

/-- str.lower(): lowercase every character. -/
def lowerStr (s : String) : String := ⟨s.data.map Char.toLower⟩

/-- str.capitalize(): uppercase the first character. -/
def capitalizeStr (s : String) : String :=
  match s.data with
  | [] => s
  | c :: cs => ⟨c.toUpper :: cs⟩

/-! ## load_data.py : clean_products and clean_sales -/

/-- A row of products.csv as read by load_data.py.  The price column is the
result of pd.to_numeric(df["price"], errors="coerce"): none is NaN. -/
structure LProduct where
  product_id : Int
  product_name : Option String
  category : Option String
  price : Option ℚ
  deriving DecidableEq

/-- A fully cleaned product row (all defaults applied). -/
structure LProductClean where
  product_id : Int
  product_name : String
  category : String
  price : ℚ
  deriving DecidableEq

/-- valid_categories in clean_products. -/
def validCategories : List String := ["Electronics", "Clothing", "Books", "Food"]

/-- clean_products step: df["product_name"].fillna("Unknown"). -/
def fillName (n : Option String) : String := n.getD "Unknown"

/-- clean_products step: keep a category only when it is in the valid set,
otherwise "Other"; a missing (NaN) category is not in the set. -/
def normCategory (c : Option String) : String :=
  match c with
  | some s => if validCategories.contains s then s else "Other"
  | none => "Other"

/-- clean_products step on the price column:
df["price"].fillna(0).clip(lower=0) after the to_numeric coercion. -/
def cleanPrice (p : Option ℚ) : ℚ := max (p.getD 0) 0

/-- clean_products from load_data.py: fill missing names, normalize
categories, coerce prices. -/
def clean_products (df : List LProduct) : List LProductClean :=
  df.map (fun r =>
    ⟨r.product_id, fillName r.product_name, normCategory r.category, cleanPrice r.price⟩)

/-- A row of sales.csv.  product_id and customer_id may be missing;
transaction_date is the result of parsing with format "%Y-%m-%d"
(errors="coerce"), none = NaT. -/
structure SaleRow where
  transaction_id : Int
  product_id : Option Int
  customer_id : Option Int
  quantity : Int
  transaction_date : Option Date
  deriving DecidableEq

/-- clean_sales column step: fillna(-1) on product_id and customer_id. -/
def fillIdCols (r : SaleRow) : SaleRow :=
  { r with
    product_id := some (r.product_id.getD (-1)),
    customer_id := some (r.customer_id.getD (-1)) }

/-- clean_sales column step: invalid dates coerced to NaT were filled with
datetime(2000, 1, 1).date(). -/
def fillDateCol (r : SaleRow) : SaleRow :=
  { r with transaction_date := some (r.transaction_date.getD sentinelDate) }

/-- The quantity repair lambda: max(x, 1) if x > 0 else 1. -/
def fixQuantity (q : Int) : Int := if q > 0 then max q 1 else 1

/-- clean_sales / validate_sales_data column step applying the quantity
repair to a row. -/
def fixQuantityCol (r : SaleRow) : SaleRow :=
  { r with quantity := fixQuantity r.quantity }

/-- clean_sales from load_data.py (the executed outer function body):
fill missing ids with -1, default invalid dates, floor quantities at 1.
No row is dropped. -/
def clean_sales (df : List SaleRow) : List SaleRow :=
  ((df.map fillIdCols).map fillDateCol).map fixQuantityCol

/-! ## etl_pipeline_with_validations.py : validate_sales_data -/

/-- A validated sale row: the surviving sale together with the looked-up
price and the derived revenue (none when the price lookup missed). -/
structure ValidatedSale where
  sale : SaleRow
  price : Option ℚ
  revenue : Option ℚ
  deriving DecidableEq

/-- dropna(subset=["product_id", "customer_id", "transaction_date"]). -/
def hasCriticalFields (r : SaleRow) : Bool :=
  r.product_id.isSome && r.customer_id.isSome && r.transaction_date.isSome

/-- The referential-integrity mask:
df["product_id"].isin(valid_product_ids) AND
df["customer_id"].isin(valid_customer_ids).
Applied after the dropna, so the fields are present. -/
def refIntegrity (validP validC : List Int) (r : SaleRow) : Bool :=
  decide (r.product_id.getD 0 ∈ validP) && decide (r.customer_id.getD 0 ∈ validC)

/-- df["price"] = df["product_id"].map(product_prices);
df["revenue"] = df["quantity"] * df["price"].  A miss in the mapping is NaN
and propagates into revenue. -/
def attachPriceRevenue (prices : Int → Option ℚ) (r : SaleRow) : ValidatedSale :=
  let pr := prices (r.product_id.getD 0)
  ⟨r, pr, pr.map (fun v => (r.quantity : ℚ) * v)⟩

/-- validate_sales_data from etl_pipeline_with_validations.py:
drop rows with missing critical fields, repair non-positive quantities to 1,
keep only rows passing both referential checks, then attach price/revenue. -/
def validate_sales_data (df : List SaleRow) (validP validC : List Int)
    (prices : Int → Option ℚ) : List ValidatedSale :=
  let df1 := df.filter hasCriticalFields
  let df2 := df1.map fixQuantityCol
  let df3 := df2.filter (refIntegrity validP validC)
  df3.map (attachPriceRevenue prices)

/-! ## etl_data_enrichment.py / etl_pipeline_api_extended.py :
fetch_product_metadata and enrich_product_data (the two files contain
identical copies of both functions). -/

/-- A raw metadata object from one API page (a parsed JSON record).
Fields other than id may be absent/null. rating is viewed through
pd.to_numeric(errors="coerce"): none = NaN/unparsable. -/
structure MetaRaw where
  id : String
  description : Option String
  rating : Option ℚ
  availability_status : Option String
  product_id : Option String
  deriving DecidableEq

/-- A row of the normalized metadata_df produced by fetch_product_metadata
(or any metadata collection handed to enrich_product_data). -/
structure MetaRec where
  id : String
  description : Option String
  rating : Option ℚ
  availability_status : Option String
  product_id_api : String
  deriving DecidableEq

/-- astype(str) on an object column turns a missing value into the literal
string "nan" (so the fillna that follows it in the source never fires). -/
def strOfOpt (o : Option String) : String := o.getD "nan"

/-- The per-row type normalization of fetch_product_metadata:
rename product_id to product_id_api, strip the id, stringify description
and availability_status, default an unparsable rating to 0.0. -/
def normalizeMeta (m : MetaRaw) : MetaRec :=
  ⟨strip m.id, some (strOfOpt m.description), some (m.rating.getD 0),
   some (strOfOpt m.availability_status), strOfOpt m.product_id⟩

/-- The outcome of one HTTP page request. -/
inductive PageResp where
  | ok (data : List MetaRaw)
  | httpError (status : Nat)
  | netError
  deriving DecidableEq

/-- The pagination loop of fetch_product_metadata: starting at the given
page with the remaining page budget, accumulate page data; stop at the
first empty page, non-200 status or request exception, keeping what was
accumulated before it. -/
def fetchAux (pages : Nat → PageResp) : Nat → Nat → List MetaRaw
  | _, 0 => []
  | page, fuel + 1 =>
    match pages page with
    | .ok [] => []
    | .ok data => data ++ fetchAux pages (page + 1) fuel
    | .httpError _ => []
    | .netError => []

/-- The result of fetch_product_metadata: either the empty DataFrame built
with an explicit column list, or a frame of normalized metadata rows. -/
inductive MetaFrame where
  | emptyWithCols (cols : List String)
  | frame (rows : List MetaRec)
  deriving DecidableEq

/-- The column list of the empty fallback DataFrame. -/
def metaCols : List String :=
  ["id", "description", "rating", "availability_status", "product_id"]

/-- fetch_product_metadata: run the pagination loop from page 1; when
nothing was fetched return the empty schema-correct frame, otherwise the
normalized rows. -/
def fetch_product_metadata (pages : Nat → PageResp) (maxPages : Nat) : MetaFrame :=
  let raw := fetchAux pages 1 maxPages
  if raw.isEmpty then .emptyWithCols metaCols
  else .frame (raw.map normalizeMeta)

/-- The data carried by a page response (empty for failures). -/
def okData : PageResp → List MetaRaw
  | .ok d => d
  | .httpError _ => []
  | .netError => []

/-- A page response at which the pagination loop stops: an empty result
set, a non-200 status, or a network-level request failure. -/
def stopsFetch : PageResp → Bool
  | .ok d => d.isEmpty
  | .httpError _ => true
  | .netError => true

/-- The data accumulated from the pages start, start+1, ...,
start+count-1. -/
def accumPages (pages : Nat → PageResp) (start count : Nat) : List MetaRaw :=
  ((List.range' start count).map (fun j => okData (pages j))).flatten

/-- A row of products_df as handed to enrich_product_data: product_id as
read (stringified), the remaining columns as in products.csv. -/
structure EProduct where
  product_id : String
  product_name : Option String
  category : String
  price : Option ℚ
  deriving DecidableEq

/-- An enriched product row: the (possibly key-normalized) product plus the
metadata columns brought in by the merge, with nulls filled by defaults.
product_id_api is none for an unmatched row (and the column is absent
entirely in the empty-metadata short circuit). -/
structure EnrichedProduct where
  base : EProduct
  description : String
  rating : ℚ
  availability_status : String
  product_id_api : Option String
  deriving DecidableEq

/-- The enrichment defaults attached when a product has no metadata match
(or when no metadata was fetched at all). -/
def defaultsRow (p : EProduct) : EnrichedProduct :=
  ⟨p, "No description available", 0, "Unknown", none⟩

/-- One matched output row of the left merge, after the fillna defaults
were applied to the whole frame. -/
def matchRow (p : EProduct) (m : MetaRec) : EnrichedProduct :=
  ⟨p, (m.description).getD "No description available", (m.rating).getD 0,
   (m.availability_status).getD "Unknown", some m.product_id_api⟩

/-- products_df["product_id"] = ...astype(str).str.strip(). -/
def normPid (p : EProduct) : EProduct := { p with product_id := strip p.product_id }

/-- pandas left-merge semantics for one left row: one output row per
matching right row, or a single all-NaN-extended row when nothing matches.
The metadata id is stripped before the merge (line mutating metadata_df). -/
def leftMergeMeta (metadata : List MetaRec) (p : EProduct) : List EnrichedProduct :=
  match metadata.filter (fun m => decide (strip m.id = p.product_id)) with
  | [] => [defaultsRow p]
  | ms => ms.map (matchRow p)

/-- enrich_product_data: with empty metadata, attach defaults directly;
otherwise normalize the keys on both sides and left-merge, filling the
enrichment columns left null with the defaults. -/
def enrich_product_data (products : List EProduct) (metadata : List MetaRec) :
    List EnrichedProduct :=
  if metadata.isEmpty then
    products.map defaultsRow
  else
    (products.map normPid).flatMap (leftMergeMeta metadata)

/-! ## etl_data_enrichment.py : transform_products and transform_sales -/

/-- A sales_df row as used by the transforms: product_id viewed through
pd.to_numeric(errors="coerce").astype("Int64") (none = missing/NA), the
quantity, and the transaction date viewed through
pd.to_datetime(errors="coerce"). -/
structure TSale where
  product_id : Option Int
  quantity : Int
  transaction_date : Option Date
  deriving DecidableEq

/-- A products_df row entering transform_products / transform_sales.
Columns the transforms do not touch (enrichment fields and the name) pass
through unchanged and are omitted. price may be NaN (none). -/
structure TProduct where
  product_id : String
  category : String
  price : Option ℚ
  deriving DecidableEq

/-- A transformed product row with the derived popularity_score. -/
structure TProductOut where
  product_id : String
  category : String
  price : Option ℚ
  popularity_score : ℚ
  deriving DecidableEq

/-- astype(str) applied to a nullable Int64 key: a present value prints as
its integer text, a missing one prints as "<NA>". -/
def groupKeyStr : Option Int → String
  | some n => toString n
  | none => "<NA>"

/-- The distinct group keys of sales_df.groupby("product_id"). -/
def salesKeys (sales : List TSale) : List (Option Int) :=
  (sales.map (fun r => r.product_id)).dedup

/-- The summed quantity of one groupby key. -/
def sumQuantity (sales : List TSale) (k : Option Int) : Int :=
  ((sales.filter (fun r => decide (r.product_id = k))).map (fun r => r.quantity)).sum

/-- All per-key quantity sums (the values of total_sales_quantity). -/
def groupSums (sales : List TSale) : List Int :=
  (salesKeys sales).map (sumQuantity sales)

/-- The maximum of a list, none for the empty list (the .max() of an empty
pandas series is NaN). -/
def listMaximum {α : Type} [LinearOrder α] : List α → Option α
  | [] => none
  | a :: as =>
    match listMaximum as with
    | none => some a
    | some m => some (max a m)

/-- max_sales_quantity = total_sales_quantity.max(). -/
def maxSalesQuantity (sales : List TSale) : Option Int :=
  listMaximum (groupSums sales)

/-- total_sales_quantity.get(x, 0) where x is the string-typed product key
of a product row: the sum of the group whose stringified key equals x,
else the default 0. -/
def totalFor (sales : List TSale) (x : String) : Int :=
  match (salesKeys sales).find? (fun k => decide (groupKeyStr k = x)) with
  | some k => sumQuantity sales k
  | none => 0

/-- The popularity lambda: (total_sales_quantity.get(x, 0)
/ max_sales_quantity) * 100, guarded by the max_sales_quantity > 0 check
(a NaN max compares false, giving the all-zero branch). -/
def popularity (sales : List TSale) (x : String) : ℚ :=
  match maxSalesQuantity sales with
  | some m => if 0 < m then ((totalFor sales x : ℚ) / (m : ℚ)) * 100 else 0
  | none => 0

/-- Category standardization: str.lower().str.capitalize(). -/
def capitalizeCat (s : String) : String := capitalizeStr (lowerStr s)

/-- transform_products: standardize categories, take absolute values of
parsed prices (an unparsable price stays NaN), add the popularity score. -/
def transform_products (products : List TProduct) (sales : List TSale) :
    List TProductOut :=
  products.map (fun p =>
    ⟨p.product_id, capitalizeCat p.category, p.price.map (fun q => |q|),
     popularity sales p.product_id⟩)

/-- The sales-to-products left merge of transform_sales on the normalized
string keys, keeping the product price of each match: one output pair per
matching product row, a NaN price when nothing matches. -/
def mergeSalesPrices (sales : List TSale) (products : List TProduct) :
    List (TSale × Option ℚ) :=
  sales.flatMap (fun r =>
    match products.filter
        (fun p => decide (strip p.product_id = groupKeyStr r.product_id)) with
    | [] => [(r, none)]
    | ps => ps.map (fun p => (r, p.price)))

/-- Zero-pad a natural number to two digits (strftime "%m"). -/
def pad2 (n : Nat) : String :=
  if n < 10 then "0" ++ toString n else toString n

/-- Zero-pad a natural number to four digits (strftime "%Y"). -/
def pad4 (n : Nat) : String :=
  if n < 10 then "000" ++ toString n
  else if n < 100 then "00" ++ toString n
  else if n < 1000 then "0" ++ toString n
  else toString n

/-- strftime("%Y-%m") on a parsed date. -/
def fmtMonth (d : Date) : String := pad4 d.year ++ "-" ++ pad2 d.month

/-- A transformed sales row of transform_sales. purchase_month is none
(NaN) when the transaction date did not parse. -/
structure TSaleOut where
  product_id : Option Int
  quantity : Int
  price : ℚ
  total_sales_value : ℚ
  transaction_date : Option Date
  purchase_month : Option String
  deriving DecidableEq

/-- transform_sales: merge in the product price, drop rows whose price is
missing after the merge, derive total_sales_value = quantity * price and
purchase_month from the (coerced) transaction date.  Rows whose date did
not parse are kept with a NaN purchase_month. -/
def transform_sales (sales : List TSale) (products : List TProduct) :
    List TSaleOut :=
  let merged := mergeSalesPrices sales products
  let priced := merged.filter (fun x => x.2.isSome)
  priced.map (fun x =>
    let pr := x.2.getD 0
    ⟨x.1.product_id, x.1.quantity, pr, (x.1.quantity : ℚ) * pr,
     x.1.transaction_date, (x.1.transaction_date).map fmtMonth⟩)

/-! ## incremental_pipeline.py : the watermark store and
process_sales_data.  Timestamps are order-embedded into ℕ (only their
linear order and maximum are used). -/

/-- update_last_processed_date: INSERT ... VALUES (1, new_date)
ON CONFLICT (id) DO UPDATE SET last_processed_date = new_date.
Insert when the singleton row is absent, otherwise overwrite
unconditionally. -/
def update_last_processed_date (stored : Option Nat) (newDate : Nat) : Option Nat :=
  match stored with
  | none => some newDate
  | some _ => some newDate

/-- A sales.csv row as read by the incremental pipeline, with the
transaction date already through pd.to_datetime(errors="coerce"). -/
structure IncSale where
  transaction_id : Int
  product_id : Option Int
  customer_id : Option Int
  quantity : Int
  transaction_date : Option Nat
  deriving DecidableEq

/-- The externally visible state of the incremental pipeline: the stored
watermark row (none when absent) and the destination sales table. -/
structure IncState where
  watermark : Option Nat
  salesTable : List IncSale
  deriving DecidableEq

/-- dropna(subset=["transaction_date"]). -/
def dropNaDates (rows : List IncSale) : List IncSale :=
  rows.filter (fun r => r.transaction_date.isSome)

/-- The watermark filter: rows strictly after the stored date when a
watermark exists (Python truthiness: a date is truthy, None falsy),
otherwise all date-parseable rows. -/
def newRows (st : IncState) (rows : List IncSale) : List IncSale :=
  let parsed := dropNaDates rows
  match st.watermark with
  | some w => parsed.filter (fun r => decide (w < r.transaction_date.getD 0))
  | none => parsed

/-- process_sales_data: append the in-window rows and advance the
watermark to their maximum transaction date; with no new rows, do
nothing. -/
def process_sales_data (st : IncState) (rows : List IncSale) : IncState :=
  let nr := newRows st rows
  if nr.isEmpty then st
  else
    ⟨update_last_processed_date st.watermark
       ((listMaximum (nr.map (fun r => r.transaction_date.getD 0))).getD 0),
     st.salesTable ++ nr⟩

/-! ## Helper lemmas -/

theorem listMaximum_mem {α : Type} [LinearOrder α] :
    ∀ (l : List α) (m : α), listMaximum l = some m → m ∈ l := by
  intro l
  induction l with
  | nil => intro m h; simp [listMaximum] at h
  | cons a as ih =>
    intro m h
    unfold listMaximum at h
    cases has : listMaximum as with
    | none => rw [has] at h; simp at h; simp [h]
    | some m2 =>
      rw [has] at h
      simp at h
      rcases max_choice a m2 with hc | hc
      · rw [hc] at h; simp [h]
      · rw [hc] at h
        subst h
        exact List.mem_cons_of_mem a (ih m2 has)

theorem le_listMaximum {α : Type} [LinearOrder α] :
    ∀ (l : List α) (x m : α), x ∈ l → listMaximum l = some m → x ≤ m := by
  intro l
  induction l with
  | nil => intro x m hx; simp at hx
  | cons a as ih =>
    intro x m hx h
    unfold listMaximum at h
    cases has : listMaximum as with
    | none =>
      rw [has] at h; simp at h
      rcases List.mem_cons.mp hx with hxa | hxas
      · simp [hxa, h]
      · cases as with
        | nil => simp at hxas
        | cons b bs => simp [listMaximum] at has; cases hb : listMaximum bs <;>
            rw [hb] at has <;> simp at has
    | some m2 =>
      rw [has] at h; simp at h
      subst h
      rcases List.mem_cons.mp hx with hxa | hxas
      · subst hxa; exact le_max_left _ _
      · exact le_trans (ih x m2 hxas has) (le_max_right _ _)

theorem listMaximum_of_ne_nil {α : Type} [LinearOrder α] (l : List α)
    (h : l ≠ []) : ∃ m, listMaximum l = some m := by
  cases l with
  | nil => exact absurd rfl h
  | cons a as =>
    unfold listMaximum
    cases listMaximum as with
    | none => exact ⟨a, rfl⟩
    | some m => exact ⟨max a m, rfl⟩

/-- With pairwise-distinct (trimmed) metadata keys, at most one metadata
row matches any given key. -/
theorem meta_filter_len_le_one (metadata : List MetaRec) (x : String)
    (h : (metadata.map (fun m => strip m.id)).Nodup) :
    (metadata.filter (fun m => decide (strip m.id = x))).length ≤ 1 := by
  induction metadata with
  | nil => simp
  | cons a t ih =>
    simp only [List.map_cons, List.nodup_cons, List.mem_map] at h
    obtain ⟨hnotin, hnd⟩ := h
    by_cases hfa : strip a.id = x
    · rw [List.filter_cons_of_pos (by simp [hfa])]
      have hnil : t.filter (fun m => decide (strip m.id = x)) = [] := by
        rw [List.filter_eq_nil_iff]
        intro b hb
        simp only [decide_eq_true_eq]
        intro hfb
        exact hnotin ⟨b, hb, by rw [hfb, hfa]⟩
      simp [hnil]
    · rw [List.filter_cons_of_neg (by simp [hfa])]
      exact ih hnd

theorem sum_map_one {α : Type} (l : List α) : (l.map (fun _ => (1 : Nat))).sum = l.length := by
  induction l with
  | nil => rfl
  | cons a t ih => simp [ih]; omega

/-- The quantity repair lambda always yields at least 1. -/
theorem one_le_fixQuantity (q : Int) : 1 ≤ fixQuantity q := by
  unfold fixQuantity
  split <;> omega

/-- validate_sales_data characterized as: keep exactly the rows passing
the critical-field dropna and the referential-integrity mask (a predicate
that never consults the quantity), with the quantity repair and
price/revenue attachment applied to the survivors. -/
theorem validate_sales_data_eq (df : List SaleRow) (P C : List Int)
    (pr : Int → Option ℚ) :
    validate_sales_data df P C pr =
      ((df.filter hasCriticalFields).filter (refIntegrity P C)).map
        (fun r => attachPriceRevenue pr (fixQuantityCol r)) := by
  unfold validate_sales_data
  dsimp only
  rw [List.filter_map, List.map_map]
  rfl

theorem sumQuantity_nonneg (sales : List TSale)
    (hq : ∀ r ∈ sales, 0 ≤ r.quantity) (k : Option Int) :
    0 ≤ sumQuantity sales k := by
  apply List.sum_nonneg
  intro x hx
  simp only [List.mem_map] at hx
  obtain ⟨r, hr, rfl⟩ := hx
  exact hq r (List.mem_filter.mp hr).1

theorem popularity_nonneg_le (sales : List TSale) (x : String)
    (hq : ∀ r ∈ sales, 0 ≤ r.quantity) :
    0 ≤ popularity sales x ∧ popularity sales x ≤ 100 := by
  unfold popularity
  cases hm : maxSalesQuantity sales with
  | none => norm_num
  | some m =>
    by_cases h0 : 0 < m
    · simp only [h0, if_true]
      unfold totalFor
      cases hf : (salesKeys sales).find? (fun k => decide (groupKeyStr k = x)) with
      | none => norm_num
      | some k =>
        have ht0 : 0 ≤ sumQuantity sales k := sumQuantity_nonneg sales hq k
        have htm : sumQuantity sales k ≤ m := by
          apply le_listMaximum (groupSums sales) _ m _ hm
          exact List.mem_map_of_mem _ (List.mem_of_find?_eq_some hf)
        have hm0 : (0 : ℚ) < (m : ℚ) := by exact_mod_cast h0
        constructor
        · apply mul_nonneg (div_nonneg (by exact_mod_cast ht0) (le_of_lt hm0))
          norm_num
        · have hdiv : ((sumQuantity sales k : ℚ) / (m : ℚ)) ≤ 1 :=
            (div_le_one hm0).mpr (by exact_mod_cast htm)
          calc ((sumQuantity sales k : ℚ) / (m : ℚ)) * 100
              ≤ 1 * 100 := by
                apply mul_le_mul_of_nonneg_right hdiv
                norm_num
            _ = 100 := one_mul _
    · simp only [h0, if_false]
      norm_num

/-- The pagination loop processes exactly the pages strictly before the
first stopping response (within the page budget), accumulating their
data in order. -/
theorem fetchAux_eq_accum (pages : Nat → PageResp) :
    ∀ (fuel start k : Nat), start ≤ k → k < start + fuel →
      (∀ j, start ≤ j → j < k → ∃ d, pages j = .ok d ∧ d ≠ []) →
      stopsFetch (pages k) = true →
      fetchAux pages start fuel = accumPages pages start (k - start) := by
  intro fuel
  induction fuel with
  | zero => intro start k h1 h2 _ _; omega
  | succ fuel ih =>
    intro start k h1 h2 hgood hstop
    rcases eq_or_lt_of_le h1 with heq | hlt
    · subst heq
      have hra : accumPages pages start (start - start) = [] := by
        simp [accumPages, Nat.sub_self]
      rw [hra]
      unfold fetchAux
      cases hp : pages start with
      | ok d =>
        rw [hp] at hstop
        simp only [stopsFetch, List.isEmpty_iff] at hstop
        subst hstop
        rfl
      | httpError s => rfl
      | netError => rfl
    · obtain ⟨d, hpd, hdne⟩ := hgood start le_rfl hlt
      have hsub : k - start = (k - (start + 1)) + 1 := by omega
      rw [hsub]
      unfold fetchAux
      rw [hpd]
      cases d with
      | nil => exact absurd rfl hdne
      | cons x xs =>
        rw [accumPages, List.range'_succ, List.map_cons, List.flatten_cons, hpd]
        rw [ih (start + 1) k (by omega) (by omega)
              (fun j hj1 hj2 => hgood j (by omega) hj2) hstop]
        rfl

/-! ## Claims -/

/-- Claim C10: clean_sales never drops a row.  The output has as many rows
as the input; every output row has non-null product_id, customer_id and
transaction_date; a missing product_id or customer_id is kept repaired to
the sentinel -1 and an unparsable transaction_date is kept repaired to the
sentinel date 2000-01-01. -/
theorem clean_sales_total_and_sentinels (df : List SaleRow) :
    (clean_sales df).length = df.length
    ∧ (∀ r ∈ clean_sales df,
        r.product_id.isSome ∧ r.customer_id.isSome ∧ r.transaction_date.isSome)
    ∧ (∀ k (h1 : k < df.length) (h2 : k < (clean_sales df).length),
        ((clean_sales df).get ⟨k, h2⟩).product_id
            = some ((df.get ⟨k, h1⟩).product_id.getD (-1))
        ∧ ((clean_sales df).get ⟨k, h2⟩).customer_id
            = some ((df.get ⟨k, h1⟩).customer_id.getD (-1))
        ∧ ((clean_sales df).get ⟨k, h2⟩).transaction_date
            = some ((df.get ⟨k, h1⟩).transaction_date.getD sentinelDate)) := by
  refine ⟨by simp [clean_sales], ?_, ?_⟩
  · intro r hr
    simp only [clean_sales, List.mem_map] at hr
    obtain ⟨r2, ⟨r1, ⟨r0, _, rfl⟩, rfl⟩, rfl⟩ := hr
    simp [fixQuantityCol, fillDateCol, fillIdCols]
  · intro k h1 h2
    simp [clean_sales, List.get_eq_getElem, List.getElem_map, fixQuantityCol,
      fillDateCol, fillIdCols]

/-- Witness for C10 at a concrete one-row input with a missing product_id
and an unparsable date. -/
theorem clean_sales_total_witness :
    (clean_sales [⟨1, none, some 2, 0, none⟩]).length = 1
    ∧ ((clean_sales [⟨1, none, some 2, 0, none⟩]).get ⟨0, by decide⟩).product_id
        = some (-1)
    ∧ ((clean_sales [⟨1, none, some 2, 0, none⟩]).get ⟨0, by decide⟩).transaction_date
        = some sentinelDate := by
  have h := clean_sales_total_and_sentinels [⟨1, none, some 2, 0, none⟩]
  have h3 := h.2.2 0 (by decide) (by decide)
  exact ⟨h.1, by simpa using h3.1, by simpa using h3.2.2⟩

/-- Claim C5: after Sale cleaning/validation every surviving row has
quantity at least 1; the survival predicate of validate_sales_data
consults only the critical-field and referential checks (never the
quantity), and clean_sales drops no row at all. -/
theorem quantity_floor (df dfc : List SaleRow) (P C : List Int)
    (pr : Int → Option ℚ) :
    (∀ v ∈ validate_sales_data df P C pr, 1 ≤ v.sale.quantity)
    ∧ validate_sales_data df P C pr =
        ((df.filter hasCriticalFields).filter (refIntegrity P C)).map
          (fun r => attachPriceRevenue pr (fixQuantityCol r))
    ∧ (∀ r ∈ clean_sales dfc, 1 ≤ r.quantity)
    ∧ (clean_sales dfc).length = dfc.length := by
  refine ⟨?_, validate_sales_data_eq df P C pr, ?_, by simp [clean_sales]⟩
  · intro v hv
    rw [validate_sales_data_eq] at hv
    simp only [List.mem_map] at hv
    obtain ⟨r, _, rfl⟩ := hv
    simpa [attachPriceRevenue, fixQuantityCol] using one_le_fixQuantity r.quantity
  · intro r hr
    simp only [clean_sales, List.mem_map] at hr
    obtain ⟨r2, ⟨r1, ⟨r0, _, rfl⟩, rfl⟩, rfl⟩ := hr
    simpa [fixQuantityCol] using one_le_fixQuantity _

/-- Witness for C5: a row with quantity -4 survives validation (repaired
to 1) and a cleaned row with quantity 0 ends at 1. -/
theorem quantity_floor_witness :
    (⟨⟨1, some 1, some 2, 1, some ⟨2024, 1, 1⟩⟩, none, none⟩ : ValidatedSale)
        ∈ validate_sales_data [⟨1, some 1, some 2, -4, some ⟨2024, 1, 1⟩⟩]
            [1] [2] (fun _ => none)
    ∧ (1 : Int) ≤ (⟨⟨1, some 1, some 2, 1, some ⟨2024, 1, 1⟩⟩, none, none⟩ :
        ValidatedSale).sale.quantity := by
  refine ⟨by decide, ?_⟩
  exact (quantity_floor [⟨1, some 1, some 2, -4, some ⟨2024, 1, 1⟩⟩] []
      [1] [2] (fun _ => none)).1 _ (by decide)

/-- Claim C4: every row returned by validate_sales_data has its
product_id in the valid Product-key set and its customer_id in the valid
Customer-key set (rows failing either check were excluded). -/
theorem referential_integrity (df : List SaleRow) (P C : List Int)
    (pr : Int → Option ℚ) :
    ∀ v ∈ validate_sales_data df P C pr,
      ∃ p c, v.sale.product_id = some p ∧ p ∈ P
        ∧ v.sale.customer_id = some c ∧ c ∈ C := by
  intro v hv
  rw [validate_sales_data_eq] at hv
  simp only [List.mem_map] at hv
  obtain ⟨r, hr, rfl⟩ := hv
  rw [List.mem_filter] at hr
  obtain ⟨hr1, hri⟩ := hr
  rw [List.mem_filter] at hr1
  obtain ⟨_, hcrit⟩ := hr1
  simp only [hasCriticalFields, Bool.and_eq_true, Option.isSome_iff_exists] at hcrit
  obtain ⟨⟨⟨p, hp⟩, c, hc⟩, _⟩ := hcrit
  simp only [refIntegrity, Bool.and_eq_true, decide_eq_true_eq] at hri
  refine ⟨p, c, ?_, ?_, ?_, ?_⟩
  · simpa [attachPriceRevenue, fixQuantityCol] using hp
  · have := hri.1
    rw [hp] at this
    simpa using this
  · simpa [attachPriceRevenue, fixQuantityCol] using hc
  · have := hri.2
    rw [hc] at this
    simpa using this

/-- Witness for C4 at a concrete input with one valid and two invalid
rows. -/
theorem referential_integrity_witness :
    (⟨⟨2, some 1, some 3, 2, some ⟨2024, 1, 2⟩⟩, none, none⟩ : ValidatedSale)
        ∈ validate_sales_data
            [⟨2, some 1, some 3, 2, some ⟨2024, 1, 2⟩⟩,
             ⟨3, some 9, some 3, 2, some ⟨2024, 1, 3⟩⟩,
             ⟨4, some 1, some 9, 2, some ⟨2024, 1, 4⟩⟩]
            [1] [3] (fun _ => none)
    ∧ ∃ p c,
        (⟨⟨2, some 1, some 3, 2, some ⟨2024, 1, 2⟩⟩, none, none⟩ :
            ValidatedSale).sale.product_id = some p ∧ p ∈ [(1 : Int)]
        ∧ (⟨⟨2, some 1, some 3, 2, some ⟨2024, 1, 2⟩⟩, none, none⟩ :
            ValidatedSale).sale.customer_id = some c ∧ c ∈ [(3 : Int)] := by
  refine ⟨by decide, ?_⟩
  exact referential_integrity
    [⟨2, some 1, some 3, 2, some ⟨2024, 1, 2⟩⟩,
     ⟨3, some 9, some 3, 2, some ⟨2024, 1, 3⟩⟩,
     ⟨4, some 1, some 9, 2, some ⟨2024, 1, 4⟩⟩]
    [1] [3] (fun _ => none) _ (by decide)

/-- Counterexample to claim C6 as stated: clean_products sends a parsed
negative price to 0, not to its absolute value, and transform_products
leaves an unparsable price undefined (NaN) rather than 0. -/
theorem price_coercion_counterexample :
    ((clean_products [⟨1, some "A", some "Books", some (-5)⟩]).get
        ⟨0, by decide⟩).price = 0
    ∧ (0 : ℚ) ≠ |(-5 : ℚ)|
    ∧ ((transform_products [⟨"1", "Toys", none⟩] []).get ⟨0, by decide⟩).price
        = none := by
  refine ⟨by decide, by decide, by decide⟩

/-- Claim C6 (amended): after clean_products every row's price is a
defined non-negative number — an unparsable price becomes 0 and a parsed
price is clamped below at 0 (a negative price becomes 0, not its absolute
value); the scenario row with unparsable price ends with product_name
"Unknown", category "Other" and price 0.  transform_products instead
replaces a parsed price by its absolute value and keeps an unparsable
price undefined. -/
theorem price_coercion (df : List LProduct) (products : List TProduct)
    (sales : List TSale) :
    (∀ r ∈ clean_products df, 0 ≤ r.price)
    ∧ (∀ k (h1 : k < df.length) (h2 : k < (clean_products df).length),
        ((clean_products df).get ⟨k, h2⟩).price = max ((df.get ⟨k, h1⟩).price.getD 0) 0)
    ∧ (∀ k (h1 : k < products.length)
        (h2 : k < (transform_products products sales).length),
        ((transform_products products sales).get ⟨k, h2⟩).price
          = ((products.get ⟨k, h1⟩).price).map (fun q => |q|))
    ∧ clean_products [⟨1, none, some "Toys", none⟩] = [⟨1, "Unknown", "Other", 0⟩] := by
  refine ⟨?_, ?_, ?_, by decide⟩
  · intro r hr
    simp only [clean_products, List.mem_map] at hr
    obtain ⟨r0, _, rfl⟩ := hr
    simp [cleanPrice]
  · intro k h1 h2
    simp [clean_products, List.get_eq_getElem, List.getElem_map, cleanPrice]
  · intro k h1 h2
    simp [transform_products, List.get_eq_getElem, List.getElem_map]

/-- Witness for the amended C6 at a concrete input. -/
theorem price_coercion_witness :
    ((clean_products [⟨1, none, some "Toys", some (-7)⟩]).get ⟨0, by decide⟩).price
        = max (((([⟨1, none, some "Toys", some (-7)⟩] : List LProduct).get
            ⟨0, by decide⟩).price).getD 0) 0
    ∧ ((transform_products [⟨"2", "Toys", some (-7)⟩] []).get ⟨0, by decide⟩).price
        = ((([⟨"2", "Toys", some (-7)⟩] : List TProduct).get
            ⟨0, by decide⟩).price).map (fun q => |q|) := by
  refine ⟨?_, ?_⟩
  · exact (price_coercion [⟨1, none, some "Toys", some (-7)⟩] [] []).2.1 0
      (by decide) (by decide)
  · exact (price_coercion [] [⟨"2", "Toys", some (-7)⟩] []).2.2.1 0
      (by decide) (by decide)

/-- Counterexample to claim C1 as stated: one product merged against a
metadata collection holding two records with the same key yields two
output rows, not one. -/
theorem enrich_cardinality_counterexample :
    ¬ ((enrich_product_data [⟨"1", none, "Toys", some 5⟩]
        [⟨"1", some "a", some 1, some "In", "7"⟩,
         ⟨"1", some "b", some 2, some "Out", "8"⟩]).length
      = ([⟨"1", none, "Toys", some 5⟩] : List EProduct).length) := by decide

/-- Claim C1 (amended): enriching N product rows yields exactly N output
rows whenever the (stripped) metadata keys are pairwise distinct; with
duplicate keys the left merge fans out, one output row per match. -/
theorem enrich_no_fanout_on_nodup_keys (products : List EProduct)
    (metadata : List MetaRec) (h : (metadata.map (fun m => strip m.id)).Nodup) :
    (enrich_product_data products metadata).length = products.length := by
  unfold enrich_product_data
  by_cases hm : metadata.isEmpty
  · simp [hm]
  · simp only [hm, Bool.false_eq_true, if_false]
    rw [List.length_flatMap, List.map_map]
    have h1 : ∀ p ∈ products,
        ((List.length ∘ leftMergeMeta metadata) ∘ normPid) p = (fun _ => (1 : Nat)) p := by
      intro p _
      simp only [Function.comp_apply]
      unfold leftMergeMeta
      cases hf : metadata.filter
          (fun m => decide (strip m.id = (normPid p).product_id)) with
      | nil => rfl
      | cons m ms =>
        have hle := meta_filter_len_le_one metadata (normPid p).product_id h
        rw [hf] at hle
        simp only [List.length_cons] at hle
        cases ms with
        | nil => rfl
        | cons m2 ms2 => simp at hle
    rw [List.map_congr_left h1]
    exact sum_map_one products

/-- Witness for the amended C1: two products against two distinct-keyed
metadata records come back as exactly two rows. -/
theorem enrich_no_fanout_witness :
    (enrich_product_data [⟨"1", none, "Toys", some 5⟩, ⟨"2", none, "Books", some 6⟩]
        [⟨"1", some "a", some 1, some "In", "7"⟩,
         ⟨"2", some "b", some 2, some "Out", "8"⟩]).length
      = ([⟨"1", none, "Toys", some 5⟩, ⟨"2", none, "Books", some 6⟩] :
          List EProduct).length := by
  exact enrich_no_fanout_on_nodup_keys
    [⟨"1", none, "Toys", some 5⟩, ⟨"2", none, "Books", some 6⟩]
    [⟨"1", some "a", some 1, some "In", "7"⟩,
     ⟨"2", some "b", some 2, some "Out", "8"⟩] (by decide)

/-- Counterexample to claim C2 as stated: with a stored watermark of
20240601 (for 2024-06-01), advancing with the earlier 20240101 silently
overwrites the stored value instead of leaving it unchanged. -/
theorem watermark_overwrite_counterexample :
    update_last_processed_date (some 20240601) 20240101 = some 20240101
    ∧ update_last_processed_date (some 20240601) 20240101 ≠ some 20240601 := by
  decide

/-- Claim C2 (amended): update_last_processed_date is an unconditional
upsert (an earlier value silently overwrites the stored one); the stored
watermark is nevertheless non-decreasing across pipeline runs because
process_sales_data only calls it with the maximum date of rows strictly
after the stored watermark. -/
theorem watermark_monotone_across_runs (st : IncState) (rows : List IncSale)
    (w : Nat) (h : st.watermark = some w) :
    ∃ w2, (process_sales_data st rows).watermark = some w2 ∧ w ≤ w2 := by
  unfold process_sales_data
  dsimp only
  by_cases hnr : (newRows st rows).isEmpty
  · simp only [hnr, if_true]
    exact ⟨w, h, le_refl w⟩
  · simp only [hnr, Bool.false_eq_true, if_false]
    have hne : newRows st rows ≠ [] := by
      intro hcon
      rw [hcon] at hnr
      simp at hnr
    have hdne : (newRows st rows).map (fun r => r.transaction_date.getD 0) ≠ [] := by
      simpa using hne
    obtain ⟨m, hm⟩ := listMaximum_of_ne_nil _ hdne
    refine ⟨m, ?_, ?_⟩
    · simp [update_last_processed_date, h, hm]
    · obtain ⟨x, hx⟩ := List.exists_mem_of_ne_nil (newRows st rows) hne
      have heq : newRows st rows =
          (dropNaDates rows).filter (fun r => decide (w < r.transaction_date.getD 0)) := by
        unfold newRows
        rw [h]
      have hwlt : w < x.transaction_date.getD 0 := by
        have hx2 := hx
        rw [heq] at hx2
        have := (List.mem_filter.mp hx2).2
        simpa using this
      have hle : x.transaction_date.getD 0 ≤ m :=
        le_listMaximum _ _ m
          (List.mem_map_of_mem (fun r => r.transaction_date.getD 0) hx) hm
      omega

/-- Witness for the amended C2: from watermark 3, a run with one new row
dated 7 leaves the watermark at least 3. -/
theorem watermark_monotone_witness :
    3 ≤ ((process_sales_data ⟨some 3, []⟩
        [⟨1, some 1, some 1, 2, some 7⟩]).watermark).getD 0 := by
  obtain ⟨w2, hw, hle⟩ := watermark_monotone_across_runs ⟨some 3, []⟩
    [⟨1, some 1, some 1, 2, some 7⟩] 3 rfl
  rw [hw]
  simpa using hle

/-- Claim C3: a run in which no source row is dated strictly after the
stored watermark appends nothing and leaves the state (watermark and
sales table) unchanged; a run with in-window rows appends exactly those
rows and sets the watermark to their maximum transaction date. -/
theorem incremental_noop_and_advance (st : IncState) (rows : List IncSale) :
    (∀ w, st.watermark = some w →
        (∀ r ∈ rows, ∀ d, r.transaction_date = some d → d ≤ w) →
        process_sales_data st rows = st)
    ∧ (newRows st rows ≠ [] →
        (process_sales_data st rows).salesTable = st.salesTable ++ newRows st rows
        ∧ ∃ m, (process_sales_data st rows).watermark = some m
            ∧ m ∈ (newRows st rows).map (fun r => r.transaction_date.getD 0)
            ∧ ∀ x ∈ (newRows st rows).map (fun r => r.transaction_date.getD 0),
                x ≤ m) := by
  constructor
  · intro w hw hle
    have hnil : newRows st rows = [] := by
      simp only [newRows, hw]
      rw [List.filter_eq_nil_iff]
      intro r hr
      simp only [dropNaDates, List.mem_filter] at hr
      obtain ⟨hmem, hsome⟩ := hr
      obtain ⟨d, hd⟩ := Option.isSome_iff_exists.mp hsome
      simp only [decide_eq_true_eq, hd, Option.getD_some]
      have := hle r hmem d hd
      omega
    simp [process_sales_data, hnil]
  · intro hne
    have hdne : (newRows st rows).map (fun r => r.transaction_date.getD 0) ≠ [] := by
      simpa using hne
    obtain ⟨m, hm⟩ := listMaximum_of_ne_nil _ hdne
    have hnrE : (newRows st rows).isEmpty = false := by
      cases hb : (newRows st rows).isEmpty
      · rfl
      · exact absurd (List.isEmpty_iff.mp hb) hne
    constructor
    · simp [process_sales_data, hnrE]
    · refine ⟨m, ?_, listMaximum_mem _ m hm, fun x hx => le_listMaximum _ x m hx hm⟩
      cases hsw : st.watermark <;>
        simp [process_sales_data, hnrE, update_last_processed_date, hm, hsw]

/-- Witness for C3: a no-op run from watermark 5, and an advancing run
from watermark 3 appending the single row dated 9. -/
theorem incremental_noop_witness :
    process_sales_data ⟨some 5, []⟩ [⟨1, some 1, some 1, 2, some 4⟩] = ⟨some 5, []⟩
    ∧ (process_sales_data ⟨some 3, []⟩ [⟨2, some 1, some 1, 2, some 9⟩]).salesTable
        = [] ++ newRows ⟨some 3, []⟩ [⟨2, some 1, some 1, 2, some 9⟩] := by
  constructor
  · exact (incremental_noop_and_advance ⟨some 5, []⟩
        [⟨1, some 1, some 1, 2, some 4⟩]).1 5 rfl
      (by
        intro r hr d hd
        simp only [List.mem_singleton] at hr
        subst hr
        simp only [Option.some.injEq] at hd
        omega)
  · exact ((incremental_noop_and_advance ⟨some 3, []⟩
        [⟨2, some 1, some 1, 2, some 9⟩]).2 (by decide)).1

/-- Counterexample to claim C7 as stated: with a negative sales quantity
a popularity score can drop below 0. -/
theorem popularity_counterexample :
    ((transform_products [⟨"1", "Toys", some 5⟩]
        [⟨some 1, -5, none⟩, ⟨some 2, 10, none⟩]).get
          ⟨0, by decide⟩).popularity_score = -50
    ∧ ¬ (0 : ℚ) ≤ -50 := by
  constructor
  · have hmax : maxSalesQuantity [⟨some 1, -5, none⟩, ⟨some 2, 10, none⟩]
        = some 10 := by decide
    have htot : totalFor [⟨some 1, -5, none⟩, ⟨some 2, 10, none⟩] "1" = -5 := by
      decide
    show popularity [⟨some 1, -5, none⟩, ⟨some 2, 10, none⟩] "1" = -50
    rw [popularity, hmax, htot]
    norm_num
  · norm_num

/-- Claim C7 (amended): provided every sales quantity is non-negative,
every popularity score lies in [0, 100]; all scores are 0 when the
maximum per-product summed quantity is non-positive or undefined, and a
product absent from the sales aggregate scores 0. -/
theorem popularity_score_bounds (products : List TProduct) (sales : List TSale)
    (hq : ∀ r ∈ sales, 0 ≤ r.quantity) :
    (∀ p ∈ transform_products products sales,
        0 ≤ p.popularity_score ∧ p.popularity_score ≤ 100)
    ∧ (∀ m, maxSalesQuantity sales = some m → m ≤ 0 →
        ∀ p ∈ transform_products products sales, p.popularity_score = 0)
    ∧ (maxSalesQuantity sales = none →
        ∀ p ∈ transform_products products sales, p.popularity_score = 0)
    ∧ (∀ q ∈ products,
        (salesKeys sales).find? (fun k => decide (groupKeyStr k = q.product_id)) = none →
        popularity sales q.product_id = 0) := by
  refine ⟨?_, ?_, ?_, ?_⟩
  · intro p hp
    simp only [transform_products, List.mem_map] at hp
    obtain ⟨p0, _, rfl⟩ := hp
    exact popularity_nonneg_le sales p0.product_id hq
  · intro m hm hm0 p hp
    simp only [transform_products, List.mem_map] at hp
    obtain ⟨p0, _, rfl⟩ := hp
    show popularity sales p0.product_id = 0
    rw [popularity, hm]
    dsimp only
    rw [if_neg (by omega)]
  · intro hm p hp
    simp only [transform_products, List.mem_map] at hp
    obtain ⟨p0, _, rfl⟩ := hp
    show popularity sales p0.product_id = 0
    rw [popularity, hm]
  · intro q _ hf
    rw [popularity]
    cases hm : maxSalesQuantity sales with
    | none => rfl
    | some m =>
      dsimp only
      by_cases h0 : 0 < m
      · rw [if_pos h0, totalFor, hf]
        norm_num
      · rw [if_neg h0]

/-- Witness for the amended C7: a product key absent from the aggregate
scores 0, under all-non-negative quantities. -/
theorem popularity_score_witness :
    popularity [⟨some 1, 3, none⟩] "7" = 0 := by
  exact (popularity_score_bounds [⟨"7", "A", some 1⟩] [⟨some 1, 3, none⟩]
      (by decide)).2.2.2 ⟨"7", "A", some 1⟩ (by decide) (by decide)

/-- Counterexample to claim C8 as stated: a sale row whose price resolves
but whose transaction_date is unparsable stays in the final output (with
a NaN purchase_month); it is not excluded. -/
theorem transform_sales_counterexample :
    transform_sales [⟨some 1, 2, none⟩] [⟨"1", "A", some 5⟩]
      = [⟨some 1, 2, 5, 10, none, none⟩]
    ∧ ([⟨some 1, 2, 5, 10, none, none⟩] : List TSaleOut) ≠ [] := by
  constructor
  · have hm : mergeSalesPrices [⟨some 1, 2, none⟩] [⟨"1", "A", some 5⟩]
        = [(⟨some 1, 2, none⟩, some 5)] := by decide
    unfold transform_sales
    dsimp only
    rw [hm]
    norm_num
  · simp

/-- Claim C8 (amended): every transform_sales output row carries
total_sales_value = quantity * price and purchase_month equal to the
YYYY-MM rendering of its (possibly unparsed) transaction date; the output
count equals the count of merged rows with a resolved price (so only the
price dropna removes rows — unparsable dates are kept with a null month),
and every output row's price stems from a merge match. -/
theorem transform_sales_shape (sales : List TSale) (products : List TProduct) :
    (∀ o ∈ transform_sales sales products,
        o.total_sales_value = (o.quantity : ℚ) * o.price
        ∧ o.purchase_month = (o.transaction_date).map fmtMonth)
    ∧ (transform_sales sales products).length
        = ((mergeSalesPrices sales products).filter (fun x => x.2.isSome)).length
    ∧ (∀ o ∈ transform_sales sales products,
        ∃ x, x ∈ mergeSalesPrices sales products ∧ x.2 = some o.price
          ∧ o.product_id = x.1.product_id
          ∧ o.transaction_date = x.1.transaction_date) := by
  refine ⟨?_, ?_, ?_⟩
  · intro o ho
    simp only [transform_sales, List.mem_map] at ho
    obtain ⟨x, _, rfl⟩ := ho
    exact ⟨rfl, rfl⟩
  · simp [transform_sales]
  · intro o ho
    simp only [transform_sales, List.mem_map] at ho
    obtain ⟨x, hx, rfl⟩ := ho
    rw [List.mem_filter] at hx
    obtain ⟨hxm, hxs⟩ := hx
    obtain ⟨v, hv⟩ := Option.isSome_iff_exists.mp hxs
    refine ⟨x, hxm, ?_, rfl, rfl⟩
    rw [hv]
    simp [hv]

/-- Witness for the amended C8 at a one-row join with a parsed date. -/
theorem transform_sales_shape_witness :
    (⟨some 1, 2, 5, 10, some ⟨2024, 6, 1⟩, some "2024-06"⟩ : TSaleOut)
        ∈ transform_sales [⟨some 1, 2, some ⟨2024, 6, 1⟩⟩] [⟨"1", "A", some 5⟩]
    ∧ (⟨some 1, 2, 5, 10, some ⟨2024, 6, 1⟩, some "2024-06"⟩ : TSaleOut).purchase_month
        = ((⟨some 1, 2, 5, 10, some ⟨2024, 6, 1⟩, some "2024-06"⟩ :
            TSaleOut).transaction_date).map fmtMonth := by
  have hts : transform_sales [⟨some 1, 2, some ⟨2024, 6, 1⟩⟩] [⟨"1", "A", some 5⟩]
      = [⟨some 1, 2, 5, 10, some ⟨2024, 6, 1⟩, some "2024-06"⟩] := by
    have hm : mergeSalesPrices [⟨some 1, 2, some ⟨2024, 6, 1⟩⟩] [⟨"1", "A", some 5⟩]
        = [(⟨some 1, 2, some ⟨2024, 6, 1⟩⟩, some 5)] := by decide
    unfold transform_sales
    dsimp only
    rw [hm]
    norm_num [fmtMonth, pad4, pad2]
    decide
  have hmem : (⟨some 1, 2, 5, 10, some ⟨2024, 6, 1⟩, some "2024-06"⟩ : TSaleOut)
      ∈ transform_sales [⟨some 1, 2, some ⟨2024, 6, 1⟩⟩] [⟨"1", "A", some 5⟩] := by
    rw [hts]
    exact List.mem_singleton.mpr rfl
  exact ⟨hmem, ((transform_sales_shape [⟨some 1, 2, some ⟨2024, 6, 1⟩⟩]
      [⟨"1", "A", some 5⟩]).1 _ hmem).2⟩

/-- Claim C9: the fetch stops at the first empty page, non-200 status or
network failure, returning everything accumulated from the earlier pages
(a partial result, not an error); when nothing at all was fetched it
returns the empty frame with the schema columns id, description, rating,
availability_status, product_id. -/
theorem fetch_partial_and_schema (pages : Nat → PageResp) (maxPages k : Nat)
    (h1 : 1 ≤ k) (h2 : k ≤ maxPages)
    (hgood : ∀ j, 1 ≤ j → j < k → ∃ d, pages j = .ok d ∧ d ≠ [])
    (hstop : stopsFetch (pages k) = true) :
    fetch_product_metadata pages maxPages =
      (if (accumPages pages 1 (k - 1)).isEmpty then .emptyWithCols metaCols
       else .frame ((accumPages pages 1 (k - 1)).map normalizeMeta))
    ∧ (fetchAux pages 1 maxPages = [] →
        fetch_product_metadata pages maxPages = .emptyWithCols metaCols) := by
  have haux := fetchAux_eq_accum pages maxPages 1 k h1 (by omega) hgood hstop
  constructor
  · unfold fetch_product_metadata
    dsimp only
    rw [haux]
  · intro hnil
    unfold fetch_product_metadata
    dsimp only
    rw [hnil]
    rfl

/-- Witness for C9: one good page followed by an HTTP 500 yields the
accumulated single-record frame. -/
theorem fetch_partial_witness :
    fetch_product_metadata
        (fun j => if j = 1 then .ok [⟨"9", none, some 3, none, some "9"⟩]
                  else .httpError 500) 5
      = (if (accumPages
              (fun j => if j = 1 then .ok [⟨"9", none, some 3, none, some "9"⟩]
                        else .httpError 500) 1 (2 - 1)).isEmpty
          then .emptyWithCols metaCols
          else .frame ((accumPages
              (fun j => if j = 1 then .ok [⟨"9", none, some 3, none, some "9"⟩]
                        else .httpError 500) 1 (2 - 1)).map normalizeMeta)) := by
  exact (fetch_partial_and_schema
    (fun j => if j = 1 then .ok [⟨"9", none, some 3, none, some "9"⟩]
              else .httpError 500) 5 2 (by omega) (by omega)
    (by
      intro j hj1 hj2
      have hj : j = 1 := by omega
      subst hj
      exact ⟨[⟨"9", none, some 3, none, some "9"⟩], rfl, by decide⟩)
    (by decide)).1
